import Mathlib

/-!
Verification of the targeted exam generation / weakness-analysis engine of
the StudentCareerPlanner repository.

The definitions below are a shallow embedding of the Python sources
`services/intelligent_exam_generator.py`, `services/weakness_analysis_service.py`
and the query layer of `database/db_manager.py`.  Python floats are modelled
as exact rationals (`ℚ`); the SQLite tables are modelled as in-memory lists of
rows; Python's unseeded `random` module is modelled as an oracle (`Rng`)
supplying the outcome of each `random.random() < 0.7` coin and each
`random.choice` index, threaded through the computation by explicit counters.
Python dicts that are used in insertion order are modelled as association
lists that preserve insertion order.
-/

namespace SCP

/-- Row of the `subjects` table (`database/models.py`, class Subject). -/
structure Subject where
  id : Nat
  name : String
  category : String
  is_core : Bool
deriving Repr, DecidableEq

/-- Row of the `knowledge_points` table (`database/models.py`, class KnowledgePoint). -/
structure KnowledgePoint where
  id : Nat
  subject_id : Nat
  name : String
  parent_id : Option Nat
  level : Nat
  description : String
deriving Repr, DecidableEq

/-- Row of the `questions` table (`database/models.py`, class Question).
Difficulty and score are Python floats, modelled as rationals. -/
structure Question where
  id : Nat
  subject_id : Nat
  content : String
  answer : String
  analysis : String
  question_type : String
  difficulty : ℚ
  score : ℚ
deriving Repr, DecidableEq

/-- Row of the `question_knowledge` link table (class QuestionKnowledge). -/
structure QuestionKnowledge where
  question_id : Nat
  knowledge_point_id : Nat
  weight : ℚ
deriving Repr, DecidableEq

/-- Row of the `student_answers` table (class StudentAnswer). -/
structure StudentAnswer where
  id : Nat
  student_id : Nat
  exam_id : Nat
  question_id : Nat
  student_answer : String
  score_obtained : ℚ
  is_correct : Bool
deriving Repr, DecidableEq

/-- The relational store behind `DatabaseManager`: one list of rows per table
that the engine reads. -/
structure DB where
  subjects : List Subject
  knowledge_points : List KnowledgePoint
  questions : List Question
  question_knowledge : List QuestionKnowledge
  student_answers : List StudentAnswer
deriving Repr, DecidableEq

/-- `DatabaseManager.get_student_all_answers`: `SELECT ... FROM student_answers
WHERE student_id = ?`. -/
def DB.get_student_all_answers (db : DB) (student_id : Nat) : List StudentAnswer :=
  db.student_answers.filter (fun a => a.student_id == student_id)

/-- `DatabaseManager.get_question_knowledge_points`: knowledge points joined
through `question_knowledge` rows whose `question_id` matches. -/
def DB.get_question_knowledge_points (db : DB) (question_id : Nat) : List KnowledgePoint :=
  (db.question_knowledge.filter (fun l => l.question_id == question_id)).flatMap
    (fun l => db.knowledge_points.filter (fun kp => kp.id == l.knowledge_point_id))

/-- Comparison key of `ORDER BY id`. -/
def subjectIdLe (a b : Subject) : Prop :=
  a.id ≤ b.id

instance : DecidableRel subjectIdLe :=
  fun a b => inferInstanceAs (Decidable (a.id ≤ b.id))

/-- `DatabaseManager.get_all_subjects`: `SELECT * FROM subjects ORDER BY id`
(modelled by a sort on the id column). -/
def DB.get_all_subjects (db : DB) : List Subject :=
  List.insertionSort subjectIdLe db.subjects

/-- The filter dictionary taken by `DatabaseManager.search_questions`.
In the Python caller the keys `subject_id`, `question_type`, `min_difficulty`,
`max_difficulty` and `exclude_ids` are always present; `knowledge_point_ids`
may be absent (modelled by `[]`, which Python also treats as falsy).
`filters.get('subject_id')` / `filters.get('question_type')` are tested for
truthiness, so `0` / `""` behave like an absent filter. -/
structure SearchFilters where
  subject_id : Nat
  knowledge_point_ids : List Nat
  question_type : String
  min_difficulty : Option ℚ
  max_difficulty : Option ℚ
  exclude_ids : List Nat
deriving Repr, DecidableEq

/-- The WHERE clause assembled by `DatabaseManager.search_questions` for one
candidate question row: each present filter contributes a conjunct; the
`knowledge_point_ids` filter is an EXISTS over the join table (matching ANY of
the listed knowledge points); `exclude_ids` is a NOT IN. -/
def matchesFilters (db : DB) (f : SearchFilters) (q : Question) : Bool :=
  (f.knowledge_point_ids.isEmpty ||
    db.question_knowledge.any
      (fun l => l.question_id == q.id && f.knowledge_point_ids.contains l.knowledge_point_id))
  && (f.subject_id == 0 || q.subject_id == f.subject_id)
  && (f.question_type == "" || q.question_type == f.question_type)
  && (match f.min_difficulty with
      | none => true
      | some lo => decide (lo ≤ q.difficulty))
  && (match f.max_difficulty with
      | none => true
      | some hi => decide (q.difficulty ≤ hi))
  && (f.exclude_ids.isEmpty || !(f.exclude_ids.contains q.id))

/-- `DatabaseManager.search_questions`: `SELECT DISTINCT` of the question rows
satisfying the assembled WHERE clause (one output row per question). -/
def DB.search_questions (db : DB) (f : SearchFilters) : List Question :=
  db.questions.filter (matchesFilters db f)

/-- Python truthiness of an optional integer argument (`if subject_id:`):
`None` and `0` are falsy. -/
def optTruthy (o : Option Nat) : Bool :=
  o.getD 0 != 0

/-- Python's `round` to the nearest integer, rounding exact halves to the
nearest even integer (banker's rounding). -/
def roundHalfEven (q : ℚ) : ℤ :=
  let n := ⌊q⌋
  let frac := q - (n : ℚ)
  if frac < 1/2 then n
  else if 1/2 < frac then n + 1
  else if n % 2 = 0 then n else n + 1

/-- Python's `round(x, 2)`. -/
def round2 (q : ℚ) : ℚ :=
  (roundHalfEven (q * 100) : ℚ) / 100

/-! ### WeaknessAnalysisService (`services/weakness_analysis_service.py`) -/

/-- One value of the insertion-ordered `kp_performance` dict built by
`WeaknessAnalysisService.analyze_student_weaknesses`. -/
structure Perf where
  knowledge_point_id : Nat
  knowledge_point_name : String
  subject_id : Nat
  level : Nat
  total_attempts : Nat
  correct_attempts : Nat
deriving Repr, DecidableEq

/-- One entry of the list returned by `analyze_student_weaknesses` (the dict
after `mastery_rate` and `subject_name` have been added). -/
structure WeakEntry where
  knowledge_point_id : Nat
  knowledge_point_name : String
  subject_id : Nat
  level : Nat
  total_attempts : Nat
  correct_attempts : Nat
  mastery_rate : ℚ
  subject_name : String
deriving Repr, DecidableEq

/-- Record one (knowledge point, correctness) observation in the
insertion-ordered `kp_performance` association list: create the entry on
first encounter, otherwise bump the tallies of the existing entry in place. -/
def updatePerf (l : List Perf) (kp : KnowledgePoint) (correct : Bool) : List Perf :=
  match l with
  | [] => [⟨kp.id, kp.name, kp.subject_id, kp.level, 1, if correct then 1 else 0⟩]
  | p :: rest =>
    if p.knowledge_point_id == kp.id then
      { p with
        total_attempts := p.total_attempts + 1,
        correct_attempts := p.correct_attempts + (if correct then 1 else 0) } :: rest
    else
      p :: updatePerf rest kp correct

/-- The two nested loops of `analyze_student_weaknesses` that build
`kp_performance`: for each answer, for each knowledge point of its question,
skip it when a subject filter is given (truthy) and does not match, otherwise
tally the attempt. -/
def kp_performance (db : DB) (answers : List StudentAnswer) (subject_id : Option Nat) :
    List Perf :=
  answers.foldl
    (fun acc answer =>
      (db.get_question_knowledge_points answer.question_id).foldl
        (fun acc kp =>
          if optTruthy subject_id && (kp.subject_id != subject_id.getD 0) then acc
          else updatePerf acc kp answer.is_correct)
        acc)
    []

/-- The body of the second loop of `analyze_student_weaknesses`: skip entries
with zero attempts, compute `mastery_rate = correct/total`, keep the entry
iff the rate is below the 0.65 weakness threshold, resolving the subject name
(default `"未知"`) for kept entries. -/
def toWeakEntry (db : DB) (p : Perf) : Option WeakEntry :=
  if p.total_attempts == 0 then none
  else
    let mastery_rate : ℚ := (p.correct_attempts : ℚ) / (p.total_attempts : ℚ)
    if mastery_rate < 0.65 then
      let subject_name :=
        (((db.get_all_subjects).find? (fun s => s.id == p.subject_id)).map Subject.name).getD "未知"
      some ⟨p.knowledge_point_id, p.knowledge_point_name, p.subject_id, p.level,
            p.total_attempts, p.correct_attempts, mastery_rate, subject_name⟩
    else none

/-- Comparison key of the final `weaknesses.sort(key=lambda x: x['mastery_rate'])`. -/
def rateLe (a b : WeakEntry) : Prop :=
  a.mastery_rate ≤ b.mastery_rate

instance : DecidableRel rateLe :=
  fun a b => inferInstanceAs (Decidable (a.mastery_rate ≤ b.mastery_rate))

instance : IsTotal WeakEntry rateLe :=
  ⟨fun a b => le_total a.mastery_rate b.mastery_rate⟩

instance : IsTrans WeakEntry rateLe :=
  ⟨fun _ _ _ h₁ h₂ => le_trans h₁ h₂⟩

/-- The weaknesses list of `analyze_student_weaknesses` before the final sort,
in insertion (first-encounter) order of the knowledge points. -/
def weak_entries_pre (db : DB) (student_id : Nat) (subject_id : Option Nat) :
    List WeakEntry :=
  (kp_performance db (db.get_student_all_answers student_id) subject_id).filterMap
    (toWeakEntry db)

/-- `WeaknessAnalysisService.analyze_student_weaknesses`: returns `[]` for a
student without answers, otherwise the below-threshold entries sorted
ascending by mastery rate.  Python's `list.sort` is a stable ascending sort,
modelled by `List.insertionSort` (stable by `List.sublist_insertionSort`). -/
def analyze_student_weaknesses (db : DB) (student_id : Nat) (subject_id : Option Nat) :
    List WeakEntry :=
  if (db.get_student_all_answers student_id).isEmpty then []
  else List.insertionSort rateLe (weak_entries_pre db student_id subject_id)

/-- One value of the insertion-ordered `kp_stats` dict of
`get_knowledge_point_mastery`: (knowledge point id, correct, total). -/
def updateStat (l : List (Nat × Nat × Nat)) (kpId : Nat) (correct : Bool) :
    List (Nat × Nat × Nat) :=
  match l with
  | [] => [(kpId, (if correct then 1 else 0), 1)]
  | (k, c, t) :: rest =>
    if k == kpId then (k, c + (if correct then 1 else 0), t + 1) :: rest
    else (k, c, t) :: updateStat rest kpId correct

/-- `WeaknessAnalysisService.get_knowledge_point_mastery`: the per-knowledge-
point correctness ratios of a student's full answer history, with a neutral
0.5 default for a zero-attempt tally, as an insertion-ordered map. -/
def get_knowledge_point_mastery (db : DB) (student_id : Nat) : List (Nat × ℚ) :=
  let answers := db.get_student_all_answers student_id
  let kp_stats :=
    answers.foldl
      (fun acc answer =>
        (db.get_question_knowledge_points answer.question_id).foldl
          (fun acc kp => updateStat acc kp.id answer.is_correct)
          acc)
      []
  kp_stats.map (fun s => (s.1, if s.2.2 > 0 then (s.2.1 : ℚ) / (s.2.2 : ℚ) else 0.5))

/-! ### IntelligentExamGenerator (`services/intelligent_exam_generator.py`) -/

/-- Oracle for the unseeded `random` module: `coin k` is the outcome of the
`k`-th `random.random() < 0.7` draw of the run, `pick k` determines the
`k`-th `random.choice` (the chosen index is `pick k` modulo the candidate
count). -/
structure Rng where
  coin : Nat → Bool
  pick : Nat → Nat

/-- `random.choice` on a candidate list (only ever reached with a non-empty
list in the source; on an empty list there is no choice, modelled as `none`). -/
def choiceOpt (rng : Rng) (k : Nat) (l : List Question) : Option Question :=
  l.get? (rng.pick k % l.length)

/-- One `{'count': ..., 'score_each': ...}` value of a question-distribution
dict. -/
structure SlotCfg where
  count : Nat
  score_each : ℚ
deriving Repr, DecidableEq

/-- `IntelligentExamGenerator._get_default_distribution` (the subject-name
lookup in the source is computed but unused). -/
def _get_default_distribution (db : DB) (subject_id : Nat) (total_score : Nat) :
    List (String × SlotCfg) :=
  let _subject_name :=
    (((db.get_all_subjects).find? (fun s => s.id == subject_id)).map Subject.name).getD ""
  if total_score == 150 then
    [("选择题", ⟨12, 4⟩), ("填空题", ⟨4, 5⟩), ("解答题", ⟨6, 15⟩)]
  else if total_score == 100 then
    [("选择题", ⟨10, 4⟩), ("解答题", ⟨5, 12⟩)]
  else
    [("选择题", ⟨10, 4⟩), ("填空题", ⟨5, 5⟩), ("解答题", ⟨5, 10⟩)]

/-- `IntelligentExamGenerator._get_difficulty_target`:
`{'easy': 0.3, 'medium': 0.5, 'hard': 0.7}.get(level, 0.5)`. -/
def _get_difficulty_target (level : String) : ℚ :=
  if level == "easy" then 0.3
  else if level == "medium" then 0.5
  else if level == "hard" then 0.7
  else 0.5

/-- `IntelligentExamGenerator._get_question_difficulty_target`: the per-slot
difficulty target ramping linearly from `max 0.1 (base − 0.2)` to
`min 0.9 (base + 0.2)` across the slot's type group. -/
def _get_question_difficulty_target (index total : Nat) (base_difficulty : ℚ) : ℚ :=
  let progress := if total > 0 then (index : ℚ) / (total : ℚ) else 0
  let min_diff := max 0.1 (base_difficulty - 0.2)
  let max_diff := min 0.9 (base_difficulty + 0.2)
  min_diff + (max_diff - min_diff) * progress

/-- `IntelligentExamGenerator._select_question`.  `target_kp_ids = []` models
Python's falsy `None`/empty list.  If the knowledge-point-restricted query
finds nothing, the identical query without that restriction is retried; the
result (when any candidates exist) is a uniformly random candidate.  Returns
the selected question (if any) and the advanced `random.choice` counter. -/
def _select_question (db : DB) (rng : Rng) (pick_idx : Nat) (subject_id : Nat)
    (question_type : String) (target_kp_ids : List Nat) (difficulty_range : ℚ × ℚ)
    (exclude_ids : List Nat) : Option Question × Nat :=
  let filters : SearchFilters :=
    ⟨subject_id, [], question_type, some difficulty_range.1, some difficulty_range.2,
     exclude_ids⟩
  if target_kp_ids.isEmpty then
    match choiceOpt rng pick_idx (db.search_questions filters) with
    | some q => (some q, pick_idx + 1)
    | none => (none, pick_idx)
  else
    match choiceOpt rng pick_idx
        (db.search_questions { filters with knowledge_point_ids := target_kp_ids }) with
    | some q => (some q, pick_idx + 1)
    | none =>
      match choiceOpt rng pick_idx (db.search_questions filters) with
      | some q => (some q, pick_idx + 1)
      | none => (none, pick_idx)

/-- Mutable state of the selection loop of `generate_targeted_exam`:
the accumulators `selected_questions` and `used_q_ids` plus the two
randomness counters. -/
structure GenState where
  selected : List Question
  used_q_ids : List Nat
  coins : Nat
  picks : Nat

/-- One iteration of the inner `for i in range(count)` loop of
`generate_targeted_exam`: compute the slot's difficulty target, decide
(consuming a coin only when `focus_on_weaknesses` holds and weak points
exist) whether to restrict to weak knowledge points, select a question with
window target ± 0.15 excluding the already used ids, and record it. -/
def genStep (db : DB) (rng : Rng) (subject_id : Nat) (focus_on_weaknesses : Bool)
    (weak_kp_ids : List Nat) (q_type : String) (count : Nat) (difficulty_target : ℚ)
    (st : GenState) (i : Nat) : GenState :=
  let q_difficulty := _get_question_difficulty_target i count difficulty_target
  let draws_coin := focus_on_weaknesses && decide (weak_kp_ids.length > 0)
  let use_weakness := draws_coin && rng.coin st.coins
  let coins1 := if draws_coin then st.coins + 1 else st.coins
  let sel := _select_question db rng st.picks subject_id q_type
    (if use_weakness then weak_kp_ids else [])
    (q_difficulty - 0.15, q_difficulty + 0.15) st.used_q_ids
  match sel.1 with
  | some q =>
    ⟨st.selected ++ [q], st.used_q_ids ++ [q.id], coins1, sel.2⟩
  | none => ⟨st.selected, st.used_q_ids, coins1, sel.2⟩

/-- The inner loop of `generate_targeted_exam` over the slots of one
question-type group. -/
def genGroup (db : DB) (rng : Rng) (subject_id : Nat) (focus_on_weaknesses : Bool)
    (weak_kp_ids : List Nat) (difficulty_target : ℚ) (st : GenState)
    (entry : String × SlotCfg) : GenState :=
  (List.range entry.2.count).foldl
    (genStep db rng subject_id focus_on_weaknesses weak_kp_ids entry.1 entry.2.count
      difficulty_target)
    st

/-- The outer loop of `generate_targeted_exam` over the question-type groups
of the distribution (Python dicts iterate in insertion order). -/
def genLoop (db : DB) (rng : Rng) (subject_id : Nat) (focus_on_weaknesses : Bool)
    (weak_kp_ids : List Nat) (difficulty_target : ℚ)
    (question_distribution : List (String × SlotCfg)) (st : GenState) : GenState :=
  question_distribution.foldl
    (genGroup db rng subject_id focus_on_weaknesses weak_kp_ids difficulty_target)
    st

/-- The `difficulty_stats` dict of
`IntelligentExamGenerator._calculate_difficulty_stats` (the empty-input branch
returns zero counts, matching the empty distribution dict). -/
structure DifficultyStats where
  average : ℚ
  easy_count : Nat
  medium_count : Nat
  hard_count : Nat
deriving Repr, DecidableEq

/-- `IntelligentExamGenerator._calculate_difficulty_stats`: rounded average
difficulty plus bucket counts (easy < 0.4 ≤ medium < 0.7 ≤ hard). -/
def _calculate_difficulty_stats (questions : List Question) : DifficultyStats :=
  if questions.isEmpty then ⟨0, 0, 0, 0⟩
  else
    let difficulties := questions.map Question.difficulty
    let avg_difficulty := difficulties.sum / (difficulties.length : ℚ)
    let easy_count := (difficulties.filter (fun d => decide (d < 0.4))).length
    let medium_count :=
      (difficulties.filter (fun d => decide (0.4 ≤ d) && decide (d < 0.7))).length
    let hard_count := (difficulties.filter (fun d => decide (0.7 ≤ d))).length
    ⟨round2 avg_difficulty, easy_count, medium_count, hard_count⟩

/-- The `weakness_coverage` dict of
`IntelligentExamGenerator._calculate_weakness_coverage`. -/
structure Coverage where
  covered_count : Nat
  total_count : Nat
  coverage_rate : ℚ
deriving Repr, DecidableEq

/-- `IntelligentExamGenerator._calculate_weakness_coverage`: the set of weak
knowledge points touched by at least one selected question's links, and the
rounded covered/total ratio (0 when no weak points were identified). -/
def _calculate_weakness_coverage (db : DB) (questions : List Question)
    (weak_kp_ids : List Nat) : Coverage :=
  if weak_kp_ids.isEmpty then ⟨0, 0, 0⟩
  else
    let covered_weak_kps : Finset ℕ :=
      questions.foldl
        (fun s q =>
          (db.get_question_knowledge_points q.id).foldl
            (fun s kp => if weak_kp_ids.contains kp.id then insert kp.id s else s)
            s)
        ∅
    let coverage_rate : ℚ :=
      if !weak_kp_ids.isEmpty then (covered_weak_kps.card : ℚ) / (weak_kp_ids.length : ℚ)
      else 0
    ⟨covered_weak_kps.card, weak_kp_ids.length, round2 coverage_rate⟩

/-- The diagnostic string appended by `_generate_recommendations` when no
question could be selected. -/
def insufficient_bank_msg : String :=
  "⚠️ 未能成功组卷，题库可能不足，请补充题目。"

/-- Under-coverage diagnostic of `_generate_recommendations`. -/
def under_coverage_msg (c : Coverage) : String :=
  "💡 试卷仅覆盖了" ++ toString c.covered_count ++ "/" ++ toString c.total_count
    ++ "个薄弱知识点，建议补充相关题目。"

/-- Good-coverage diagnostic of `_generate_recommendations`. -/
def good_coverage_msg (c : Coverage) : String :=
  "✅ 试卷已覆盖" ++ toString c.covered_count ++ "个薄弱知识点，针对性强。"

/-- Too-easy diagnostic of `_generate_recommendations`. -/
def too_easy_msg : String :=
  "💡 试卷整体偏简单，可适当增加难度。"

/-- Too-hard diagnostic of `_generate_recommendations`. -/
def too_hard_msg : String :=
  "💡 试卷整体偏难，建议增加简单题增强信心。"

/-- `IntelligentExamGenerator._generate_recommendations`: for an empty exam,
return only the insufficiency flag; otherwise append the coverage observation
(under-coverage needs a non-empty weaknesses list) and the difficulty-balance
observation. -/
def _generate_recommendations (questions : List Question)
    (weaknesses : List WeakEntry) (coverage : Coverage) : List String :=
  if questions.isEmpty then [insufficient_bank_msg]
  else
    let coverage_recs :=
      if coverage.coverage_rate < 0.5 && !weaknesses.isEmpty then
        [under_coverage_msg coverage]
      else if decide ((0.7 : ℚ) ≤ coverage.coverage_rate) then
        [good_coverage_msg coverage]
      else []
    let diff_stats := _calculate_difficulty_stats questions
    let difficulty_recs :=
      if (diff_stats.easy_count : ℚ) > (questions.length : ℚ) * 0.5 then
        [too_easy_msg]
      else if (diff_stats.hard_count : ℚ) > (questions.length : ℚ) * 0.5 then
        [too_hard_msg]
      else []
    coverage_recs ++ difficulty_recs

/-- The result dict of `IntelligentExamGenerator.generate_targeted_exam`. -/
structure GeneratedExam where
  questions : List Question
  total_score : ℚ
  actual_count : Nat
  difficulty_stats : DifficultyStats
  weakness_coverage : Coverage
  recommendations : List String
  weaknesses_analyzed : List WeakEntry
deriving Repr, DecidableEq

/-- `IntelligentExamGenerator.generate_targeted_exam`: analyze weaknesses,
resolve the distribution and difficulty target, run the selection loop, and
assemble the statistics. -/
def generate_targeted_exam (db : DB) (rng : Rng) (student_id subject_id : Nat)
    (total_score : Nat) (focus_on_weaknesses : Bool) (difficulty_level : String)
    (question_distribution : Option (List (String × SlotCfg))) : GeneratedExam :=
  let weaknesses := analyze_student_weaknesses db student_id (some subject_id)
  let weak_kp_ids := (weaknesses.take 15).map WeakEntry.knowledge_point_id
  let distribution :=
    match question_distribution with
    | none => _get_default_distribution db subject_id total_score
    | some d => d
  let difficulty_target := _get_difficulty_target difficulty_level
  let final := genLoop db rng subject_id focus_on_weaknesses weak_kp_ids
    difficulty_target distribution ⟨[], [], 0, 0⟩
  let selected_questions := final.selected
  let actual_total := (selected_questions.map Question.score).sum
  let difficulty_stats := _calculate_difficulty_stats selected_questions
  let weakness_coverage := _calculate_weakness_coverage db selected_questions weak_kp_ids
  let recommendations :=
    _generate_recommendations selected_questions weaknesses weakness_coverage
  ⟨selected_questions, actual_total, selected_questions.length, difficulty_stats,
   weakness_coverage, recommendations, weaknesses.take 10⟩

/-! ### Concrete fixtures used by witnesses and counterexamples -/

/-- A completely empty store. -/
def dbE : DB := ⟨[], [], [], [], []⟩

/-- A degenerate randomness oracle (all coins false, all choices index 0). -/
def rngZ : Rng := ⟨fun _ => false, fun _ => 0⟩

/-- A question of subject 1 at difficulty 0.5. -/
def mkQ (i : Nat) (t : String) (s : ℚ) : Question :=
  ⟨i, 1, "", "", "", t, 1/2, s⟩

/-- A store holding one mid-difficulty choice question with no knowledge-point
links. -/
def dbF : DB := ⟨[], [], [mkQ 30 "选择题" 4], [], []⟩

/-- An answer by student 1 on question `qid`. -/
def mkAns (i qid : Nat) (c : Bool) : StudentAnswer := ⟨i, 1, 1, qid, "", 0, c⟩

/-- A store with attempt history: knowledge point 1 (subject 1) at mastery
1/3, knowledge point 2 at mastery 1 (not weak), knowledge point 3 (subject 2)
at mastery 0. -/
def dbW : DB :=
  ⟨[⟨1, "数学", "理", true⟩],
   [⟨1, 1, "A", none, 1, ""⟩, ⟨2, 1, "B", none, 1, ""⟩, ⟨3, 2, "C", none, 1, ""⟩],
   [],
   [⟨100, 1, 1⟩, ⟨101, 2, 1⟩, ⟨102, 3, 1⟩],
   [mkAns 1 100 false, mkAns 2 100 true, mkAns 3 101 true, mkAns 4 101 true,
    mkAns 5 102 false, mkAns 6 100 false]⟩

/-- Same per-student history and link tables as `dbW`, but different subjects,
questions and an extra answer row of another student. -/
def dbW2 : DB :=
  ⟨[⟨9, "物理", "理", false⟩],
   [⟨1, 1, "A", none, 1, ""⟩, ⟨2, 1, "B", none, 1, ""⟩, ⟨3, 2, "C", none, 1, ""⟩],
   [mkQ 30 "选择题" 4],
   [⟨100, 1, 1⟩, ⟨101, 2, 1⟩, ⟨102, 3, 1⟩],
   [mkAns 1 100 false, mkAns 2 100 true, mkAns 3 101 true, mkAns 4 101 true,
    mkAns 5 102 false, mkAns 6 100 false, ⟨7, 2, 1, 100, "", 0, true⟩]⟩

/-- Loop invariant of the selection loop: `used_q_ids` mirrors the ids of the
selected questions and holds no duplicates. -/
def UsedInv (st : GenState) : Prop :=
  st.used_q_ids = st.selected.map Question.id ∧ st.used_q_ids.Nodup

/-- The scenario-B bank: for subject 1, exactly 12 choice questions (4 pts),
4 fill-in questions (5 pts) and 6 short-answer questions (15 pts), all of
difficulty 0.5. -/
def dbB : DB :=
  ⟨[], [],
   ((List.range 12).map (fun i => mkQ (i + 1) "选择题" 4))
     ++ ((List.range 4).map (fun i => mkQ (i + 13) "填空题" 5))
     ++ ((List.range 6).map (fun i => mkQ (i + 17) "解答题" 15)),
   [], []⟩

/-- The question rows of one type group. -/
def typeQs (db : DB) (t : String) : List Question :=
  db.questions.filter (fun q => q.question_type == t)

/-- How many questions of a type group are not yet excluded. -/
def remaining (db : DB) (t : String) (used : List Nat) : Nat :=
  ((typeQs db t).filter (fun q => !(used.contains q.id))).length

/-- Whether the slot's difficulty window (target ± 0.15 at base 0.5)
contains the uniform bank difficulty 0.5. -/
def eligible (i n : Nat) : Bool :=
  decide (_get_question_difficulty_target i n (1/2) - 0.15 ≤ (1/2 : ℚ)) &&
  decide ((1/2 : ℚ) ≤ _get_question_difficulty_target i n (1/2) + 0.15)

/-- State after the choice-question group of a scenario-B run. -/
def stB1 (rng : Rng) : GenState :=
  (List.range 12).foldl (genStep dbB rng 1 false [] "选择题" 12 (1/2)) ⟨[], [], 0, 0⟩

/-- State after the fill-in group of a scenario-B run. -/
def stB2 (rng : Rng) : GenState :=
  (List.range 4).foldl (genStep dbB rng 1 false [] "填空题" 4 (1/2)) (stB1 rng)

/-- State after the short-answer group of a scenario-B run. -/
def stB3 (rng : Rng) : GenState :=
  (List.range 6).foldl (genStep dbB rng 1 false [] "解答题" 6 (1/2)) (stB2 rng)

section Theorems

/- Batteries marks the `Rat` arithmetic operations `@[irreducible]`; re-mark
them semireducible locally so that concrete runs of the engine can be
evaluated by `decide`/`rfl`. -/
attribute [local semireducible] Rat.add Rat.mul Rat.sub Rat.inv Rat.ofScientific

/-! ### C7: per-slot difficulty target formula and monotonicity -/

/-- C7: for each base difficulty in {0.3, 0.5, 0.7} the per-slot target equals
floor + (ceiling − floor) · (i / n) with floor = max(0.1, base − 0.2) and
ceiling = min(0.9, base + 0.2), and within a type group the targets are
non-decreasing in the slot index. -/
theorem difficulty_target_formula_and_monotone (base : ℚ)
    (hbase : base = 0.3 ∨ base = 0.5 ∨ base = 0.7) (n i j : Nat) (hij : i ≤ j) :
    _get_question_difficulty_target i n base =
      max 0.1 (base - 0.2) +
        (min 0.9 (base + 0.2) - max 0.1 (base - 0.2)) * ((i : ℚ) / (n : ℚ)) ∧
    _get_question_difficulty_target i n base ≤
      _get_question_difficulty_target j n base := by
  constructor
  · unfold _get_question_difficulty_target
    rcases Nat.eq_zero_or_pos n with hn | hn
    · subst hn; norm_num
    · simp [hn]
  · unfold _get_question_difficulty_target
    have hc : (0:ℚ) ≤ min 0.9 (base + 0.2) - max 0.1 (base - 0.2) := by
      rcases hbase with h | h | h <;> subst h <;> norm_num
    rcases Nat.eq_zero_or_pos n with hn | hn
    · subst hn; simp
    · have hn' : (0:ℚ) < (n:ℚ) := by exact_mod_cast hn
      have hijq : ((i:ℚ)) ≤ (j:ℚ) := by exact_mod_cast hij
      have hdiv : (i:ℚ)/(n:ℚ) ≤ (j:ℚ)/(n:ℚ) := by
        gcongr
      simp only [hn, if_pos]
      exact add_le_add_left (mul_le_mul_of_nonneg_left hdiv hc) _

/-- C7 witness: the formula and monotonicity at base 0.5, group size 4,
slots 1 ≤ 2. -/
theorem difficulty_target_formula_and_monotone_witness :
    _get_question_difficulty_target 1 4 0.5 =
      max 0.1 ((0.5:ℚ) - 0.2) +
        (min 0.9 ((0.5:ℚ) + 0.2) - max 0.1 ((0.5:ℚ) - 0.2)) * ((1 : ℚ) / (4 : ℚ)) ∧
    _get_question_difficulty_target 1 4 0.5 ≤ _get_question_difficulty_target 2 4 0.5 :=
  difficulty_target_formula_and_monotone 0.5 (Or.inr (Or.inl rfl)) 4 1 2 (by decide)

/-! ### C10: unknown difficulty levels default to 0.5 ('medium') -/

/-- C10: any difficulty_level outside {'easy','medium','hard'} maps to the
numeric target 0.5, identical to 'medium', and the whole composition behaves
exactly as with 'medium'. -/
theorem unknown_difficulty_level_defaults (lvl : String)
    (h : lvl ∉ (["easy", "medium", "hard"] : List String)) :
    _get_difficulty_target lvl = 0.5 ∧
    _get_difficulty_target lvl = _get_difficulty_target "medium" ∧
    ∀ db rng sid subj ts focus dist,
      generate_targeted_exam db rng sid subj ts focus lvl dist =
        generate_targeted_exam db rng sid subj ts focus "medium" dist := by
  have he : lvl ≠ "easy" := by rintro rfl; simp at h
  have hm : lvl ≠ "medium" := by rintro rfl; simp at h
  have hh : lvl ≠ "hard" := by rintro rfl; simp at h
  have ht : _get_difficulty_target lvl = 0.5 := by
    simp [_get_difficulty_target, he, hm, hh]
  have ht2 : _get_difficulty_target lvl = _get_difficulty_target "medium" := by
    rw [ht]; rfl
  refine ⟨ht, ht2, ?_⟩
  intro db rng sid subj ts focus dist
  unfold generate_targeted_exam
  rw [ht2]

/-- C10 witness: composing with the unknown level `"随便"` equals composing
with `"medium"`. -/
theorem unknown_difficulty_level_defaults_witness :
    _get_difficulty_target "随便" = 0.5 ∧
    generate_targeted_exam dbW rngZ 1 1 150 true "随便" none =
      generate_targeted_exam dbW rngZ 1 1 150 true "medium" none := by
  have h := unknown_difficulty_level_defaults "随便" (by decide)
  exact ⟨h.1, h.2.2 dbW rngZ 1 1 150 true none⟩

/-! ### C4: empty attempt history -/

/-- C4: for a student whose stored answer history is empty, the weakness
ranker returns the empty sequence and the mastery estimator the empty map
(both are total functions, so no error is possible). -/
theorem empty_history_yields_empty (db : DB) (sid : Nat) (subj : Option Nat)
    (h : db.get_student_all_answers sid = []) :
    analyze_student_weaknesses db sid subj = [] ∧
    get_knowledge_point_mastery db sid = [] := by
  constructor
  · unfold analyze_student_weaknesses
    rw [h]
    rfl
  · unfold get_knowledge_point_mastery
    rw [h]
    rfl

/-- C4 witness: the empty store has no history for student 1 and both
analyses return empty results. -/
theorem empty_history_yields_empty_witness :
    dbE.get_student_all_answers 1 = [] ∧
    analyze_student_weaknesses dbE 1 (some 1) = [] ∧
    get_knowledge_point_mastery dbE 1 = [] := by
  have h := empty_history_yields_empty dbE 1 (some 1) rfl
  exact ⟨rfl, h.1, h.2⟩

/-! ### C9: the mastery estimator is a pure function of the stored history -/

/-- C9: the mastery estimator is deterministic and carries no hidden state:
its output depends only on the student's stored answer rows and the
knowledge-point link tables, so any two stores that agree on those (whatever
their other tables hold) yield identical mastery ratios. -/
theorem mastery_estimator_pure (db1 db2 : DB) (sid : Nat)
    (hans : db1.get_student_all_answers sid = db2.get_student_all_answers sid)
    (hqk : db1.question_knowledge = db2.question_knowledge)
    (hkp : db1.knowledge_points = db2.knowledge_points) :
    get_knowledge_point_mastery db1 sid = get_knowledge_point_mastery db2 sid := by
  have hg : ∀ qid, db1.get_question_knowledge_points qid =
      db2.get_question_knowledge_points qid := by
    intro qid
    unfold DB.get_question_knowledge_points
    rw [hqk, hkp]
  unfold get_knowledge_point_mastery
  rw [hans]
  have hf :
      (fun (acc : List (Nat × Nat × Nat)) (answer : StudentAnswer) =>
        (db1.get_question_knowledge_points answer.question_id).foldl
          (fun acc kp => updateStat acc kp.id answer.is_correct) acc) =
      (fun acc answer =>
        (db2.get_question_knowledge_points answer.question_id).foldl
          (fun acc kp => updateStat acc kp.id answer.is_correct) acc) := by
    funext acc answer
    rw [hg]
  rw [hf]

/-- C9 witness: two stores sharing the same history of student 1 but with
different subjects, questions and other students' rows produce the same
(non-trivial) mastery map. -/
theorem mastery_estimator_pure_witness :
    get_knowledge_point_mastery dbW 1 = get_knowledge_point_mastery dbW2 1 ∧
    get_knowledge_point_mastery dbW 1 = [(1, 1/3), (2, 1), (3, 0)] := by
  refine ⟨mastery_estimator_pure dbW dbW2 1 (by decide) rfl rfl, by decide⟩

/-! ### C8: fallback query when the weak-restricted query is empty -/

/-- C8: when a slot's weak-knowledge-point-restricted query returns no
candidates, the composer retries exactly one query that is identical except
that the knowledge-point restriction is dropped (same type, difficulty
window and exclusion set, all carried in `filters`), and the slot's result is
a random choice from that second query's result (the query layer
`search_questions` is a pure filter and performs no retry itself). -/
theorem weak_restricted_fallback (db : DB) (rng : Rng) (k subj : Nat)
    (qtype : String) (kps : List Nat) (lo hi : ℚ) (excl : List Nat)
    (hkps : kps ≠ [])
    (hempty : db.search_questions ⟨subj, kps, qtype, some lo, some hi, excl⟩ = []) :
    _select_question db rng k subj qtype kps (lo, hi) excl =
      match choiceOpt rng k
          (db.search_questions ⟨subj, [], qtype, some lo, some hi, excl⟩) with
      | some q => (some q, k + 1)
      | none => (none, k) := by
  cases kps with
  | nil => exact absurd rfl hkps
  | cons a t =>
    show (match choiceOpt rng k
          (db.search_questions ⟨subj, a :: t, qtype, some lo, some hi, excl⟩) with
      | some q => (some q, k + 1)
      | none =>
        match choiceOpt rng k
            (db.search_questions ⟨subj, [], qtype, some lo, some hi, excl⟩) with
        | some q => (some q, k + 1)
        | none => (none, k)) = _
    rw [hempty]
    rfl

/-- C8 witness: with weak set {7} finding nothing, the fallback query over
`dbF` finds question 30 and the slot returns it. -/
theorem weak_restricted_fallback_witness :
    _select_question dbF rngZ 0 1 "选择题" [7] (0, 1) [] = (some (mkQ 30 "选择题" 4), 1) := by
  rw [weak_restricted_fallback dbF rngZ 0 1 "选择题" [7] 0 1 []
    (by decide) (by rfl)]
  rfl

/-! ### C2: no duplicate question identifiers in any composer run -/

/-- A `random.choice` result is a member of its candidate list. -/
theorem choiceOpt_mem {rng : Rng} {k : Nat} {l : List Question} {q : Question}
    (h : choiceOpt rng k l = some q) : q ∈ l :=
  List.get?_mem h

/-- Every question returned by `search_questions` avoids the exclusion set. -/
theorem mem_search_not_excluded {db : DB} {f : SearchFilters} {q : Question}
    (h : q ∈ db.search_questions f) : f.exclude_ids.contains q.id = false := by
  unfold DB.search_questions at h
  have hm := List.of_mem_filter h
  unfold matchesFilters at hm
  simp only [Bool.and_eq_true, Bool.or_eq_true] at hm
  rcases hm.2 with he | he
  · have : f.exclude_ids = [] := by
      cases hf : f.exclude_ids with
      | nil => rfl
      | cons a t => rw [hf] at he; simp at he
    rw [this]
    rfl
  · simpa using he

/-- A question selected by `_select_question` avoids the exclusion set it was
called with. -/
theorem select_some_not_excluded {db : DB} {rng : Rng} {k subj : Nat}
    {qtype : String} {kps : List Nat} {lo hi : ℚ} {excl : List Nat} {q : Question}
    (h : (_select_question db rng k subj qtype kps (lo, hi) excl).1 = some q) :
    excl.contains q.id = false := by
  unfold _select_question at h
  dsimp only at h
  split at h
  · split at h
    next hq =>
      cases h
      exact mem_search_not_excluded (choiceOpt_mem hq)
    next => cases h
  · split at h
    next hq =>
      cases h
      exact mem_search_not_excluded (choiceOpt_mem hq)
    next =>
      split at h
      next hq =>
        cases h
        exact mem_search_not_excluded (choiceOpt_mem hq)
      next => cases h

/-- A single slot iteration preserves the invariant. -/
theorem genStep_inv (db : DB) (rng : Rng) (subj : Nat) (focus : Bool)
    (weak : List Nat) (t : String) (n : Nat) (base : ℚ) (st : GenState) (i : Nat)
    (h : UsedInv st) :
    UsedInv (genStep db rng subj focus weak t n base st i) := by
  unfold genStep
  cases hq : (_select_question db rng st.picks subj t
      (if (focus && decide (weak.length > 0)) && rng.coin st.coins then weak else [])
      (_get_question_difficulty_target i n base - 0.15,
       _get_question_difficulty_target i n base + 0.15) st.used_q_ids).1 with
  | none =>
    simp only [hq]
    exact h
  | some q =>
    simp only [hq]
    have hex : st.used_q_ids.contains q.id = false := select_some_not_excluded hq
    have hnm : q.id ∉ st.used_q_ids := by
      intro hmem
      have h1 : st.used_q_ids.contains q.id = true := by
        simp only [List.contains_eq_any_beq, List.any_eq_true]
        exact ⟨q.id, hmem, by simp⟩
      rw [h1] at hex
      cases hex
    refine ⟨by simp [h.1], ?_⟩
    rw [List.nodup_append]
    refine ⟨h.2, List.nodup_singleton _, ?_⟩
    intro a ha hb
    simp only [List.mem_singleton] at hb
    exact hnm (hb ▸ ha)

/-- Invariants are preserved by folds. -/
theorem foldl_inv {σ α : Type _} {P : σ → Prop} {f : σ → α → σ}
    (hf : ∀ s a, P s → P (f s a)) :
    ∀ (l : List α) (s : σ), P s → P (l.foldl f s) := by
  intro l
  induction l with
  | nil => intro s hs; exact hs
  | cons a t ih => intro s hs; exact ih _ (hf s a hs)

/-- The whole selection loop preserves the invariant. -/
theorem genLoop_inv (db : DB) (rng : Rng) (subj : Nat) (focus : Bool)
    (weak : List Nat) (base : ℚ) (dist : List (String × SlotCfg)) (st : GenState)
    (h : UsedInv st) :
    UsedInv (genLoop db rng subj focus weak base dist st) := by
  unfold genLoop
  refine foldl_inv (fun s entry hs => ?_) dist st h
  unfold genGroup
  exact foldl_inv (fun s' i hs' => genStep_inv db rng subj focus weak entry.1
    entry.2.count base s' i hs') _ s hs

/-- C2: for every composer run — any store, any outcomes of the random draws,
any student, subject, target score, difficulty level and template — the
returned question list contains no repeated question identifiers. -/
theorem no_duplicate_questions (db : DB) (rng : Rng) (sid subj ts : Nat)
    (focus : Bool) (lvl : String) (dist : Option (List (String × SlotCfg))) :
    (((generate_targeted_exam db rng sid subj ts focus lvl dist).questions).map
      Question.id).Nodup := by
  show ((genLoop db rng subj focus
      (((analyze_student_weaknesses db sid (some subj)).take 15).map
        WeakEntry.knowledge_point_id)
      (_get_difficulty_target lvl)
      (match dist with
       | none => _get_default_distribution db subj ts
       | some d => d)
      ⟨[], [], 0, 0⟩).selected.map Question.id).Nodup
  have h := genLoop_inv db rng subj focus
    (((analyze_student_weaknesses db sid (some subj)).take 15).map
      WeakEntry.knowledge_point_id)
    (_get_difficulty_target lvl)
    (match dist with
     | none => _get_default_distribution db subj ts
     | some d => d)
    ⟨[], [], 0, 0⟩ ⟨rfl, List.nodup_nil⟩
  exact h.1 ▸ h.2

/-! ### C5: coverage rate bounds -/

/-- The inner fold of `_calculate_weakness_coverage` only ever inserts weak
knowledge-point ids. -/
theorem coverage_inner_fold_subset (weak : List Nat) :
    ∀ (kps : List KnowledgePoint) (s : Finset ℕ),
      kps.foldl (fun s kp => if weak.contains kp.id then insert kp.id s else s) s ⊆
        s ∪ weak.toFinset := by
  intro kps
  induction kps with
  | nil => intro s; exact Finset.subset_union_left
  | cons kp t ih =>
    intro s
    refine (ih _).trans ?_
    cases hc : weak.contains kp.id with
    | true =>
      have hkp : kp.id ∈ weak.toFinset := by
        rw [List.mem_toFinset]
        rcases List.contains_iff_exists_mem_beq.mp hc with ⟨a, ha, hab⟩
        rwa [show kp.id = a from by simpa using hab]
      simp only [hc, if_true]
      intro x hx
      rcases Finset.mem_union.mp hx with hx | hx
      · rcases Finset.mem_insert.mp hx with rfl | hx
        · exact Finset.mem_union_right _ hkp
        · exact Finset.mem_union_left _ hx
      · exact Finset.mem_union_right _ hx
    | false =>
      simp only [hc, if_false]
      exact Finset.Subset.refl _

/-- The covered set computed by `_calculate_weakness_coverage` holds only
weak knowledge-point ids. -/
theorem coverage_fold_subset (db : DB) (weak : List Nat) :
    ∀ (qs : List Question) (s : Finset ℕ),
      qs.foldl
        (fun s q =>
          (db.get_question_knowledge_points q.id).foldl
            (fun s kp => if weak.contains kp.id then insert kp.id s else s) s) s ⊆
        s ∪ weak.toFinset := by
  intro qs
  induction qs with
  | nil => intro s; exact Finset.subset_union_left
  | cons q t ih =>
    intro s
    refine (ih _).trans ?_
    have h1 := coverage_inner_fold_subset weak (db.get_question_knowledge_points q.id) s
    refine Finset.union_subset_union_left h1 |>.trans ?_
    rw [Finset.union_assoc, Finset.union_self]

/-- Banker's rounding keeps a value of `[0, B]` inside `[0, B]`. -/
theorem roundHalfEven_bounds {x : ℚ} {B : ℤ} (h0 : 0 ≤ x) (hB : x ≤ (B : ℚ)) :
    0 ≤ roundHalfEven x ∧ roundHalfEven x ≤ B := by
  unfold roundHalfEven
  dsimp only
  have hf0 : (0 : ℤ) ≤ ⌊x⌋ := Int.floor_nonneg.mpr h0
  have hfB : ⌊x⌋ ≤ B := by
    have := Int.floor_mono hB
    rwa [Int.floor_intCast] at this
  have hsucc : ¬ (1/2 : ℚ) ≤ x - (⌊x⌋ : ℚ) ∨ ⌊x⌋ + 1 ≤ B := by
    by_cases he : ⌊x⌋ = B
    · left
      intro hge
      rw [he] at hge
      linarith
    · right
      omega
  split_ifs with h1 h2 h3
  · exact ⟨hf0, hfB⟩
  · rcases hsucc with hs | hs
    · exact absurd (le_of_lt h2) hs
    · exact ⟨by omega, hs⟩
  · exact ⟨hf0, hfB⟩
  · have heq : x - (⌊x⌋ : ℚ) = 1/2 := le_antisymm (not_lt.mp h2) (not_lt.mp h1)
    rcases hsucc with hs | hs
    · exact absurd (le_of_eq heq.symm) hs
    · exact ⟨by omega, hs⟩

/-- `round(x, 2)` keeps a value of the unit interval inside the unit
interval. -/
theorem round2_unit {q : ℚ} (h0 : 0 ≤ q) (h1 : q ≤ 1) :
    0 ≤ round2 q ∧ round2 q ≤ 1 := by
  unfold round2
  have hb := roundHalfEven_bounds (x := q * 100) (B := 100)
    (by positivity) (by push_cast; linarith)
  constructor
  · have : (0 : ℚ) ≤ (roundHalfEven (q * 100) : ℚ) := by exact_mod_cast hb.1
    positivity
  · rw [div_le_one (by norm_num)]
    exact_mod_cast hb.2

/-- `round(c/n, 2)` lies in the unit interval when `c ≤ n` and `0 < n`. -/
theorem round2_ratio_unit (c n : Nat) (hn : 0 < n) (hc : c ≤ n) :
    0 ≤ round2 ((c : ℚ) / (n : ℚ)) ∧ round2 ((c : ℚ) / (n : ℚ)) ≤ 1 := by
  have hn' : (0 : ℚ) < (n : ℚ) := by exact_mod_cast hn
  refine round2_unit (by positivity) ?_
  rw [div_le_one hn']
  exact_mod_cast hc

/-- The coverage rate computed by `_calculate_weakness_coverage` lies in
`[0, 1]` and is `0` for an empty weak set. -/
theorem coverage_rate_bounds (db : DB) (qs : List Question) (weak : List Nat) :
    0 ≤ (_calculate_weakness_coverage db qs weak).coverage_rate ∧
    (_calculate_weakness_coverage db qs weak).coverage_rate ≤ 1 ∧
    (weak = [] → (_calculate_weakness_coverage db qs weak).coverage_rate = 0) := by
  cases weak with
  | nil => exact ⟨le_refl 0, show (0:ℚ) ≤ 1 by norm_num, fun _ => rfl⟩
  | cons a t =>
    have hsub := coverage_fold_subset db (a :: t) qs ∅
    rw [Finset.empty_union] at hsub
    have hcard : (qs.foldl
        (fun (s : Finset ℕ) (q : Question) =>
          (db.get_question_knowledge_points q.id).foldl
            (fun (s : Finset ℕ) (kp : KnowledgePoint) =>
              if (a :: t).contains kp.id then insert kp.id s else s) s)
        ∅).card ≤ (a :: t).length :=
      le_trans (Finset.card_le_card hsub) (List.toFinset_card_le _)
    have hr := round2_ratio_unit _ _ (Nat.succ_pos t.length) hcard
    exact ⟨hr.1, hr.2, fun h => by cases h⟩

/-- C5: for every composer run the reported coverage rate lies in `[0, 1]`,
and it is `0` whenever the weak knowledge-point set identified at the start
of the run is empty. -/
theorem coverage_rate_wellformed (db : DB) (rng : Rng) (sid subj ts : Nat)
    (focus : Bool) (lvl : String) (dist : Option (List (String × SlotCfg))) :
    (0 ≤ (generate_targeted_exam db rng sid subj ts focus lvl dist).weakness_coverage.coverage_rate ∧
      (generate_targeted_exam db rng sid subj ts focus lvl dist).weakness_coverage.coverage_rate ≤ 1) ∧
    (((analyze_student_weaknesses db sid (some subj)).take 15).map
        WeakEntry.knowledge_point_id = [] →
      (generate_targeted_exam db rng sid subj ts focus lvl dist).weakness_coverage.coverage_rate = 0) := by
  cases dist with
  | none =>
    have h := coverage_rate_bounds db
      (genLoop db rng subj focus
        (((analyze_student_weaknesses db sid (some subj)).take 15).map
          WeakEntry.knowledge_point_id)
        (_get_difficulty_target lvl) (_get_default_distribution db subj ts)
        ⟨[], [], 0, 0⟩).selected
      (((analyze_student_weaknesses db sid (some subj)).take 15).map
        WeakEntry.knowledge_point_id)
    exact ⟨⟨h.1, h.2.1⟩, fun he => h.2.2 he⟩
  | some d =>
    have h := coverage_rate_bounds db
      (genLoop db rng subj focus
        (((analyze_student_weaknesses db sid (some subj)).take 15).map
          WeakEntry.knowledge_point_id)
        (_get_difficulty_target lvl) d ⟨[], [], 0, 0⟩).selected
      (((analyze_student_weaknesses db sid (some subj)).take 15).map
        WeakEntry.knowledge_point_id)
    exact ⟨⟨h.1, h.2.1⟩, fun he => h.2.2 he⟩

/-- C5 witness: a run over the empty store has an empty weak set and zero
coverage rate. -/
theorem coverage_rate_wellformed_witness :
    (0 ≤ (generate_targeted_exam dbE rngZ 1 1 150 true "medium" none).weakness_coverage.coverage_rate ∧
      (generate_targeted_exam dbE rngZ 1 1 150 true "medium" none).weakness_coverage.coverage_rate ≤ 1) ∧
    (generate_targeted_exam dbE rngZ 1 1 150 true "medium" none).weakness_coverage.coverage_rate = 0 := by
  have h := coverage_rate_wellformed dbE rngZ 1 1 150 true "medium" none
  exact ⟨h.1, h.2 rfl⟩

/-! ### C6: graceful degradation on an exhausted bank -/

/-- When every bank query is empty, no slot can select a question. -/
theorem select_none_of_empty (db : DB) (rng : Rng)
    (hS : ∀ f, db.search_questions f = []) :
    ∀ (k subj : Nat) (t : String) (kps : List Nat) (r : ℚ × ℚ) (excl : List Nat),
      (_select_question db rng k subj t kps r excl).1 = none := by
  intro k subj t kps r excl
  unfold _select_question
  dsimp only
  split
  · rw [hS]
    rfl
  · rw [hS, hS]
    rfl

/-- When every bank query is empty, one slot iteration leaves the selection
accumulators unchanged. -/
theorem genStep_of_empty (db : DB) (rng : Rng)
    (hS : ∀ f, db.search_questions f = []) (subj : Nat) (focus : Bool)
    (weak : List Nat) (t : String) (n : Nat) (base : ℚ) (st : GenState) (i : Nat) :
    (genStep db rng subj focus weak t n base st i).selected = st.selected ∧
    (genStep db rng subj focus weak t n base st i).used_q_ids = st.used_q_ids := by
  unfold genStep
  dsimp only
  rw [select_none_of_empty db rng hS]
  exact ⟨rfl, rfl⟩

/-- When every bank query is empty, the whole selection loop leaves the
selected-question accumulator unchanged. -/
theorem genLoop_of_empty (db : DB) (rng : Rng)
    (hS : ∀ f, db.search_questions f = []) (subj : Nat) (focus : Bool)
    (weak : List Nat) (base : ℚ) (dist : List (String × SlotCfg)) (st : GenState) :
    (genLoop db rng subj focus weak base dist st).selected = st.selected := by
  unfold genLoop
  induction dist generalizing st with
  | nil => rfl
  | cons entry rest ih =>
    rw [List.foldl_cons, ih]
    unfold genGroup
    have hall : ∀ (l : List Nat) (s : GenState),
        (l.foldl (genStep db rng subj focus weak entry.1 entry.2.count base) s).selected =
          s.selected := by
      intro l
      induction l with
      | nil => intro s; rfl
      | cons i it ih2 =>
        intro s
        rw [List.foldl_cons, ih2,
          (genStep_of_empty db rng hS subj focus weak entry.1 entry.2.count base s i).1]
    exact hall _ st

/-- C6: composing against a bank on which every query comes back empty
returns a well-formed result: no questions, zero actual score, and exactly
the (non-empty) insufficiency recommendation. -/
theorem graceful_degradation (db : DB) (rng : Rng) (sid subj ts : Nat)
    (focus : Bool) (lvl : String) (dist : Option (List (String × SlotCfg)))
    (hS : ∀ f, db.search_questions f = []) :
    (generate_targeted_exam db rng sid subj ts focus lvl dist).questions = [] ∧
    (generate_targeted_exam db rng sid subj ts focus lvl dist).total_score = 0 ∧
    (generate_targeted_exam db rng sid subj ts focus lvl dist).actual_count = 0 ∧
    (generate_targeted_exam db rng sid subj ts focus lvl dist).recommendations =
      [insufficient_bank_msg] ∧
    (generate_targeted_exam db rng sid subj ts focus lvl dist).recommendations ≠ [] := by
  cases dist with
  | none =>
    have hsel := genLoop_of_empty db rng hS subj focus
      (((analyze_student_weaknesses db sid (some subj)).take 15).map
        WeakEntry.knowledge_point_id)
      (_get_difficulty_target lvl) (_get_default_distribution db subj ts) ⟨[], [], 0, 0⟩
    refine ⟨hsel, ?_, ?_, ?_, ?_⟩
    · show ((genLoop db rng subj focus _ _ _ _).selected.map Question.score).sum = 0
      rw [hsel]
      rfl
    · show (genLoop db rng subj focus _ _ _ _).selected.length = 0
      rw [hsel]
      rfl
    · show _generate_recommendations
        (genLoop db rng subj focus _ _ _ _).selected _ _ = [insufficient_bank_msg]
      rw [hsel]
      rfl
    · show _generate_recommendations
        (genLoop db rng subj focus _ _ _ _).selected _ _ ≠ []
      rw [hsel]
      intro hcon
      cases hcon
  | some d =>
    have hsel := genLoop_of_empty db rng hS subj focus
      (((analyze_student_weaknesses db sid (some subj)).take 15).map
        WeakEntry.knowledge_point_id)
      (_get_difficulty_target lvl) d ⟨[], [], 0, 0⟩
    refine ⟨hsel, ?_, ?_, ?_, ?_⟩
    · show ((genLoop db rng subj focus _ _ _ _).selected.map Question.score).sum = 0
      rw [hsel]
      rfl
    · show (genLoop db rng subj focus _ _ _ _).selected.length = 0
      rw [hsel]
      rfl
    · show _generate_recommendations
        (genLoop db rng subj focus _ _ _ _).selected _ _ = [insufficient_bank_msg]
      rw [hsel]
      rfl
    · show _generate_recommendations
        (genLoop db rng subj focus _ _ _ _).selected _ _ ≠ []
      rw [hsel]
      intro hcon
      cases hcon

/-- C6 witness: the empty store satisfies the hypothesis and degrades
gracefully. -/
theorem graceful_degradation_witness :
    (generate_targeted_exam dbE rngZ 1 1 150 true "medium" none).questions = [] ∧
    (generate_targeted_exam dbE rngZ 1 1 150 true "medium" none).total_score = 0 ∧
    (generate_targeted_exam dbE rngZ 1 1 150 true "medium" none).recommendations =
      [insufficient_bank_msg] := by
  have h := graceful_degradation dbE rngZ 1 1 150 true "medium" none (fun f => rfl)
  exact ⟨h.1, h.2.1, h.2.2.2.1⟩

/-! ### C3: weakness-ranking order, threshold and stable ties -/

/-- C3: for every attempt history, the weakness ranking is non-decreasing in
mastery rate, every returned entry is strictly below the 0.65 threshold, and
ties are kept in insertion (first-encounter) order: for each rate value the
entries carrying it appear exactly as in the pre-sort insertion-ordered
list. -/
theorem weakness_ranking_sorted (db : DB) (sid : Nat) (subj : Option Nat) :
    List.Sorted rateLe (analyze_student_weaknesses db sid subj) ∧
    (∀ e ∈ analyze_student_weaknesses db sid subj, e.mastery_rate < 0.65) ∧
    (∀ r : ℚ,
      (analyze_student_weaknesses db sid subj).filter (fun e => e.mastery_rate == r) =
        (weak_entries_pre db sid subj).filter (fun e => e.mastery_rate == r)) := by
  unfold analyze_student_weaknesses
  by_cases ha : (db.get_student_all_answers sid).isEmpty
  · simp only [ha, if_true]
    have hnil : db.get_student_all_answers sid = [] := by
      cases h : db.get_student_all_answers sid with
      | nil => rfl
      | cons x xs => rw [h] at ha; cases ha
    refine ⟨List.sorted_nil, by simp, fun r => ?_⟩
    unfold weak_entries_pre kp_performance
    rw [hnil]
    rfl
  · simp only [ha, Bool.false_eq_true, if_false]
    refine ⟨List.sorted_insertionSort rateLe _, ?_, ?_⟩
    · intro e he
      have hm : e ∈ weak_entries_pre db sid subj :=
        (List.perm_insertionSort rateLe _).mem_iff.mp he
      unfold weak_entries_pre at hm
      rcases List.mem_filterMap.mp hm with ⟨p, _, hpe⟩
      unfold toWeakEntry at hpe
      split at hpe
      · cases hpe
      · dsimp only at hpe
        split at hpe
        next hlt =>
          cases hpe
          exact hlt
        next => cases hpe
    · intro r
      have hsub : List.Sublist ((weak_entries_pre db sid subj).filter
          (fun e => e.mastery_rate == r)) (weak_entries_pre db sid subj) :=
        List.filter_sublist _
      have hpair : ((weak_entries_pre db sid subj).filter
          (fun e => e.mastery_rate == r)).Pairwise rateLe := by
        refine List.pairwise_of_forall_mem_list (fun a hagen b hbgen => ?_)
        have har : a.mastery_rate = r := by
          simpa using (List.mem_filter.mp hagen).2
        have hbr : b.mastery_rate = r := by
          simpa using (List.mem_filter.mp hbgen).2
        unfold rateLe
        rw [har, hbr]
      have h1 : List.Sublist
          ((weak_entries_pre db sid subj).filter (fun e => e.mastery_rate == r))
          (List.insertionSort rateLe (weak_entries_pre db sid subj)) :=
        List.sublist_insertionSort hpair hsub
      have hcp : ((weak_entries_pre db sid subj).filter
            (fun e => e.mastery_rate == r)).filter (fun e => e.mastery_rate == r) =
          (weak_entries_pre db sid subj).filter (fun e => e.mastery_rate == r) :=
        List.filter_eq_self.mpr (fun a ha => (List.mem_filter.mp ha).2)
      have h2 : List.Sublist
          ((weak_entries_pre db sid subj).filter (fun e => e.mastery_rate == r))
          ((List.insertionSort rateLe (weak_entries_pre db sid subj)).filter
            (fun e => e.mastery_rate == r)) := by
        have h3 := List.Sublist.filter (fun e => e.mastery_rate == r) h1
        rwa [hcp] at h3
      have hlen : ((List.insertionSort rateLe (weak_entries_pre db sid subj)).filter
            (fun e => e.mastery_rate == r)).length =
          ((weak_entries_pre db sid subj).filter (fun e => e.mastery_rate == r)).length :=
        ((List.perm_insertionSort rateLe (weak_entries_pre db sid subj)).filter
          (fun e => e.mastery_rate == r)).length_eq
      exact (List.Sublist.eq_of_length h2 hlen.symm).symm

/-- C3 witness: over `dbW` the ranking holds the zero-mastery entry for
knowledge point 3, below threshold, and the tie-filter equation at rate 0. -/
theorem weakness_ranking_sorted_witness :
    (⟨3, "C", 2, 1, 1, 0, 0, "未知"⟩ : WeakEntry) ∈
      analyze_student_weaknesses dbW 1 none ∧
    (⟨3, "C", 2, 1, 1, 0, 0, "未知"⟩ : WeakEntry).mastery_rate < 0.65 ∧
    (analyze_student_weaknesses dbW 1 none).filter
        (fun e => e.mastery_rate == (0 : ℚ)) =
      (weak_entries_pre dbW 1 none).filter (fun e => e.mastery_rate == (0 : ℚ)) :=
  ⟨by decide, (weakness_ranking_sorted dbW 1 none).2.1 _ (by decide),
    (weakness_ranking_sorted dbW 1 none).2.2 0⟩

/-! ### C1: end-to-end scenario B -/

/-- Truthiness collapse of the exclusion filter: an empty exclusion list
excludes nothing either way. -/
theorem exclude_truthy (used : List Nat) (x : Nat) :
    (used.isEmpty || !(used.contains x)) = !(used.contains x) := by
  cases used <;> simp

/-- Over a bank whose questions all belong to subject 1 at difficulty 0.5,
a slot query reduces to the not-yet-used questions of the requested type when
the difficulty window contains 0.5, and to nothing otherwise. -/
theorem searchB (db : DB)
    (hq : ∀ q ∈ db.questions, q.subject_id = 1 ∧ q.difficulty = 1/2)
    (t : String) (ht : (t == "") = false) (lo hi : ℚ) (used : List Nat) :
    db.search_questions ⟨1, [], t, some lo, some hi, used⟩ =
      (if decide (lo ≤ (1/2 : ℚ)) && decide ((1/2 : ℚ) ≤ hi) then
        (typeQs db t).filter (fun q => !(used.contains q.id))
      else []) := by
  unfold DB.search_questions typeQs
  cases hw : decide (lo ≤ (1/2 : ℚ)) && decide ((1/2 : ℚ) ≤ hi) with
  | true =>
    rw [Bool.and_eq_true] at hw
    obtain ⟨h1, h2⟩ := hw
    simp only [if_true]
    rw [List.filter_filter]
    refine List.filter_congr ?_
    intro x hx
    obtain ⟨hs, hd⟩ := hq x hx
    unfold matchesFilters
    rw [hs, hd]
    replace h1 := of_decide_eq_true h1
    replace h2 := of_decide_eq_true h2
    rw [one_div] at h1 h2
    cases used with
    | nil => simp [ht, h1, h2]
    | cons a as => simp [ht, h1, h2, Bool.and_comm]
  | false =>
    simp only [Bool.false_eq_true, if_false]
    rw [List.filter_eq_nil_iff]
    intro x hx
    obtain ⟨hs, hd⟩ := hq x hx
    unfold matchesFilters
    rw [hs, hd]
    intro hcon
    simp only [Bool.and_eq_true, decide_eq_true_eq] at hcon
    rw [Bool.and_eq_false_iff] at hw
    rcases hw with hw | hw
    · rw [decide_eq_false_iff_not] at hw
      exact hw hcon.1.1.2
    · rw [decide_eq_false_iff_not] at hw
      exact hw hcon.1.2

/-- Over such a bank, with `focus_on_weaknesses = False`, one slot iteration
either draws a not-yet-used question of the requested type (when the slot's
window contains 0.5) or leaves the state unchanged. -/
theorem genStepB (db : DB)
    (hq : ∀ q ∈ db.questions, q.subject_id = 1 ∧ q.difficulty = 1/2)
    (rng : Rng) (t : String) (ht : (t == "") = false) (n : Nat) (st : GenState)
    (i : Nat) :
    genStep db rng 1 false [] t n (1/2) st i =
      if eligible i n then
        match choiceOpt rng st.picks
            ((typeQs db t).filter (fun q => !(st.used_q_ids.contains q.id))) with
        | some q =>
          ⟨st.selected ++ [q], st.used_q_ids ++ [q.id], st.coins, st.picks + 1⟩
        | none => ⟨st.selected, st.used_q_ids, st.coins, st.picks⟩
      else ⟨st.selected, st.used_q_ids, st.coins, st.picks⟩ := by
  have hrw := searchB db hq t ht
    (_get_question_difficulty_target i n (1/2) - 0.15)
    (_get_question_difficulty_target i n (1/2) + 0.15) st.used_q_ids
  cases hw : eligible i n with
  | true =>
    unfold eligible at hw
    rw [hw, if_pos rfl] at hrw
    simp only [if_pos rfl]
    have hsel : _select_question db rng st.picks 1 t []
        (_get_question_difficulty_target i n (1/2) - 0.15,
         _get_question_difficulty_target i n (1/2) + 0.15) st.used_q_ids =
        (match choiceOpt rng st.picks
            ((typeQs db t).filter (fun q => !(st.used_q_ids.contains q.id))) with
         | some q => (some q, st.picks + 1)
         | none => (none, st.picks)) := by
      show (match choiceOpt rng st.picks
          (db.search_questions
            ⟨1, [], t, some (_get_question_difficulty_target i n (1/2) - 0.15),
             some (_get_question_difficulty_target i n (1/2) + 0.15),
             st.used_q_ids⟩) with
        | some q => (some q, st.picks + 1)
        | none => (none, st.picks)) = _
      rw [hrw]
    unfold genStep
    simp only [Bool.false_and, Bool.false_eq_true, if_false]
    rw [hsel]
    cases choiceOpt rng st.picks
        ((typeQs db t).filter (fun q => !(st.used_q_ids.contains q.id))) with
    | some q => rfl
    | none => rfl
  | false =>
    unfold eligible at hw
    rw [hw] at hrw
    simp only [Bool.false_eq_true, if_false] at hrw
    simp only [Bool.false_eq_true, if_false]
    have hsel : _select_question db rng st.picks 1 t []
        (_get_question_difficulty_target i n (1/2) - 0.15,
         _get_question_difficulty_target i n (1/2) + 0.15) st.used_q_ids =
        (none, st.picks) := by
      show (match choiceOpt rng st.picks
          (db.search_questions
            ⟨1, [], t, some (_get_question_difficulty_target i n (1/2) - 0.15),
             some (_get_question_difficulty_target i n (1/2) + 0.15),
             st.used_q_ids⟩) with
        | some q => (some q, st.picks + 1)
        | none => (none, st.picks)) = _
      rw [hrw]
      rfl
    unfold genStep
    simp only [Bool.false_and, Bool.false_eq_true, if_false]
    rw [hsel]

/-- Removing the one occurrence of a question id from an id-unique list
shortens it by exactly one. -/
theorem filter_ne_id_length :
    ∀ (l : List Question), (l.map Question.id).Nodup → ∀ q ∈ l,
      (l.filter (fun x => !(x.id == q.id))).length = l.length - 1 := by
  intro l
  induction l with
  | nil => intro _ q hq; cases hq
  | cons x xs ih =>
    intro hnd q hq
    rw [List.map_cons, List.nodup_cons] at hnd
    obtain ⟨hx, hxs⟩ := hnd
    rcases List.mem_cons.mp hq with rfl | hq
    · rw [List.filter_cons, show (!(q.id == q.id)) = false by simp]
      simp only [Bool.false_eq_true, if_false]
      have hall : xs.filter (fun y => !(y.id == q.id)) = xs := by
        rw [List.filter_eq_self]
        intro a ha
        have hne : a.id ≠ q.id :=
          fun he => hx (he ▸ List.mem_map_of_mem Question.id ha)
        simp [hne]
      rw [hall]
      simp
    · have hqid : q.id ∈ xs.map Question.id := List.mem_map_of_mem Question.id hq
      have hne : (x.id == q.id) = false := by
        simp only [beq_eq_false_iff_ne, ne_eq]
        intro he
        exact hx (he ▸ hqid)
      rw [List.filter_cons, show (!(x.id == q.id)) = true by rw [hne]; rfl]
      simp only [if_true]
      simp only [List.length_cons, ih hxs q hq]
      have hpos : 0 < xs.length := List.length_pos.mpr (List.ne_nil_of_mem hq)
      omega

/-- The candidate list of a slot has pairwise distinct question ids whenever
the bank does. -/
theorem cands_map_nodup (db : DB) (hids : (db.questions.map Question.id).Nodup)
    (t : String) (used : List Nat) :
    (((typeQs db t).filter (fun q => !(used.contains q.id))).map Question.id).Nodup := by
  have hsub : List.Sublist
      ((typeQs db t).filter (fun q => !(used.contains q.id))) db.questions :=
    (List.filter_sublist _).trans (List.filter_sublist _)
  exact List.Nodup.sublist (hsub.map Question.id) hids

/-- Marking a freshly drawn candidate as used shrinks its type group's
candidate pool by exactly one. -/
theorem remaining_after_pick (db : DB) (hids : (db.questions.map Question.id).Nodup)
    (t : String) (used : List Nat) (q : Question)
    (hq : q ∈ (typeQs db t).filter (fun x => !(used.contains x.id))) :
    remaining db t (used ++ [q.id]) = remaining db t used - 1 := by
  unfold remaining
  have hcongr : ∀ x ∈ typeQs db t,
      (!((used ++ [q.id]).contains x.id)) =
        ((!(x.id == q.id)) && (!(used.contains x.id))) := by
    intro x _
    by_cases he : x.id = q.id
    · have h1 : (x.id == q.id) = true := by simp [he]
      have h2 : ((used ++ [q.id]).contains x.id) = true := by
        simp only [List.contains_eq_any_beq, List.any_eq_true]
        exact ⟨q.id, by simp [List.mem_append], by simp [he]⟩
      rw [h1, h2]
      simp
    · have h1 : (x.id == q.id) = false := by simp [he]
      have h2 : ((used ++ [q.id]).contains x.id) = (used.contains x.id) := by
        simp only [List.contains_eq_any_beq, List.any_append]
        simp [h1]
      rw [h1, h2]
      simp
  rw [List.filter_congr hcongr, ← List.filter_filter]
  exact filter_ne_id_length _ (cands_map_nodup db hids t used) q hq

/-- Excluding ids from other type groups leaves a group's candidate pool
unchanged. -/
theorem remaining_append_none (db : DB) (t : String) (used delta : List Nat)
    (hdd : ∀ x ∈ typeQs db t, delta.contains x.id = false) :
    remaining db t (used ++ delta) = remaining db t used := by
  unfold remaining
  congr 1
  refine List.filter_congr ?_
  intro x hx
  have h' : x.id ∉ delta := by
    intro hm
    have hc : delta.contains x.id = true := by
      simp only [List.contains_eq_any_beq, List.any_eq_true]
      exact ⟨x.id, hm, by simp⟩
    rw [hdd x hx] at hc
    cases hc
  simp [List.mem_append, h']

/-- Running one type group of slots over such a bank (with
`focus_on_weaknesses = False`) selects exactly one fresh question of the
group's type per eligible slot — for any outcomes of the random choices —
provided the group holds enough candidates. -/
theorem genGroupB (db : DB)
    (hq : ∀ q ∈ db.questions, q.subject_id = 1 ∧ q.difficulty = 1/2)
    (hids : (db.questions.map Question.id).Nodup)
    (rng : Rng) (t : String) (ht : (t == "") = false) (n : Nat) (v : ℚ)
    (hv : ∀ q ∈ typeQs db t, q.score = v) :
    ∀ (js : List Nat) (st : GenState),
      st.used_q_ids.Nodup →
      (js.filter (fun j => eligible j n)).length ≤ remaining db t st.used_q_ids →
      ∃ delta : List Nat,
        (js.foldl (genStep db rng 1 false [] t n (1/2)) st).used_q_ids =
            st.used_q_ids ++ delta ∧
        (∀ x ∈ delta, x ∈ (typeQs db t).map Question.id) ∧
        (js.foldl (genStep db rng 1 false [] t n (1/2)) st).used_q_ids.Nodup ∧
        (js.foldl (genStep db rng 1 false [] t n (1/2)) st).selected.length =
            st.selected.length + (js.filter (fun j => eligible j n)).length ∧
        ((js.foldl (genStep db rng 1 false [] t n (1/2)) st).selected.map
            Question.score).sum =
          (st.selected.map Question.score).sum +
            v * ((js.filter (fun j => eligible j n)).length : ℚ) := by
  intro js
  induction js with
  | nil =>
    intro st hnd _
    exact ⟨[], by simp, by simp, hnd, by simp, by simp⟩
  | cons j js ih =>
    intro st hnd hle
    rw [List.foldl_cons, genStepB db hq rng t ht n st j]
    cases hj : eligible j n with
    | false =>
      simp only [Bool.false_eq_true, if_false]
      have hfl : ((j :: js).filter (fun j' => eligible j' n)).length =
          (js.filter (fun j' => eligible j' n)).length := by
        simp [List.filter_cons, hj]
      rw [hfl] at hle ⊢
      exact ih st hnd hle
    | true =>
      simp only [eq_self_iff_true, if_true]
      have hfl : ((j :: js).filter (fun j' => eligible j' n)).length =
          (js.filter (fun j' => eligible j' n)).length + 1 := by
        simp [List.filter_cons, hj]
      rw [hfl] at hle ⊢
      have hlen : 0 < ((typeQs db t).filter
          (fun q => !(st.used_q_ids.contains q.id))).length := by
        have : (1 : Nat) ≤ remaining db t st.used_q_ids := by omega
        exact this
      obtain ⟨qq, hcq⟩ : ∃ qq, choiceOpt rng st.picks
          ((typeQs db t).filter (fun q => !(st.used_q_ids.contains q.id))) = some qq := by
        unfold choiceOpt
        exact ⟨_, List.get?_eq_get (Nat.mod_lt _ hlen)⟩
      rw [hcq]
      dsimp only
      have hqmem : qq ∈ (typeQs db t).filter
          (fun q => !(st.used_q_ids.contains q.id)) := choiceOpt_mem hcq
      have hqtype : qq ∈ typeQs db t := List.mem_of_mem_filter hqmem
      have hqnot : qq.id ∉ st.used_q_ids := by
        have hb := List.of_mem_filter hqmem
        intro hm
        have hc : st.used_q_ids.contains qq.id = true := by
          simp only [List.contains_eq_any_beq, List.any_eq_true]
          exact ⟨qq.id, hm, by simp⟩
        rw [hc] at hb
        cases hb
      have hnd' : (st.used_q_ids ++ [qq.id]).Nodup := by
        rw [List.nodup_append]
        refine ⟨hnd, List.nodup_singleton _, ?_⟩
        intro a ha hb
        simp only [List.mem_singleton] at hb
        exact hqnot (hb ▸ ha)
      have hrem : remaining db t (st.used_q_ids ++ [qq.id]) =
          remaining db t st.used_q_ids - 1 :=
        remaining_after_pick db hids t _ qq hqmem
      have hle' : (js.filter (fun j' => eligible j' n)).length ≤
          remaining db t (st.used_q_ids ++ [qq.id]) := by
        rw [hrem]
        omega
      obtain ⟨delta, hd1, hd2, hd3, hd4, hd5⟩ :=
        ih ⟨st.selected ++ [qq], st.used_q_ids ++ [qq.id], st.coins, st.picks + 1⟩
          hnd' hle'
      refine ⟨qq.id :: delta, ?_, ?_, hd3, ?_, ?_⟩
      · rw [hd1, List.append_assoc]
        rfl
      · intro x hx
        rcases List.mem_cons.mp hx with rfl | hx
        · exact List.mem_map_of_mem Question.id hqtype
        · exact hd2 x hx
      · rw [hd4]
        simp only [List.length_append, List.length_singleton]
        omega
      · rw [hd5]
        have hsc : qq.score = v := hv qq hqtype
        simp only [List.map_append, List.sum_append, List.map_cons, List.map_nil,
          List.sum_cons, List.sum_nil, hsc]
        push_cast
        ring

/-- A positive `contains` check implies membership. -/
theorem mem_of_contains_true {l : List Nat} {x : Nat} (h : l.contains x = true) :
    x ∈ l := by
  simp only [List.contains_eq_any_beq, List.any_eq_true] at h
  rcases h with ⟨a, ha, hab⟩
  rwa [show x = a from by simpa using hab]

/-- Ids drawn from one type group never hit a disjoint type group. -/
theorem contains_false_of_subset_disjoint {delta ids1 : List Nat}
    (hsub : ∀ x ∈ delta, x ∈ ids1) {t2 : String} {db : DB}
    (hdisj : ∀ a ∈ ids1, a ∉ (typeQs db t2).map Question.id) :
    ∀ x ∈ typeQs db t2, delta.contains x.id = false := by
  intro x hx
  cases hc : delta.contains x.id with
  | false => rfl
  | true =>
    exfalso
    exact hdisj _ (hsub _ (mem_of_contains_true hc)) (List.mem_map_of_mem Question.id hx)

set_option maxRecDepth 4000 in
/-- C1 (amended): on the scenario-B bank, composing with
`total_score_target = 150`, `focus_on_weaknesses = False`, the default
template and the default difficulty level selects exactly 17 questions
(9 choice, 3 fill-in, 5 short-answer — the slots whose difficulty window
contains 0.5) with an actual total score of 9·4 + 3·5 + 5·15 = 126,
whatever the outcomes of the random draws. -/
theorem scenarioB_selects_17_scoring_126 (rng : Rng) :
    (generate_targeted_exam dbB rng 1 1 150 false "medium" none).actual_count = 17 ∧
    (generate_targeted_exam dbB rng 1 1 150 false "medium" none).total_score = 126 := by
  have hq : ∀ q ∈ dbB.questions, q.subject_id = 1 ∧ q.difficulty = 1/2 := by decide
  have hids : (dbB.questions.map Question.id).Nodup := by decide
  -- group 1: the 12 choice slots
  obtain ⟨d1, h1u, h1m, h1n, h1c, h1s⟩ :=
    genGroupB dbB hq hids rng "选择题" (by decide) 12 4 (by decide)
      (List.range 12) ⟨[], [], 0, 0⟩ (by decide) (by decide)
  replace h1u : (stB1 rng).used_q_ids = [] ++ d1 := h1u
  replace h1n : (stB1 rng).used_q_ids.Nodup := h1n
  replace h1c : (stB1 rng).selected.length =
      0 + ((List.range 12).filter (fun j => eligible j 12)).length := h1c
  replace h1s : ((stB1 rng).selected.map Question.score).sum =
      0 + 4 * (((List.range 12).filter (fun j => eligible j 12)).length : ℚ) := h1s
  rw [show ((List.range 12).filter (fun j => eligible j 12)).length = 9 from by decide]
    at h1c h1s
  -- group 2: the 4 fill-in slots
  have hdd2 : ∀ x ∈ typeQs dbB "填空题", d1.contains x.id = false :=
    contains_false_of_subset_disjoint h1m (by decide)
  have hrem2 : remaining dbB "填空题" (stB1 rng).used_q_ids = 4 := by
    rw [h1u, remaining_append_none dbB "填空题" [] d1 hdd2]
    decide
  obtain ⟨d2, h2u, h2m, h2n, h2c, h2s⟩ :=
    genGroupB dbB hq hids rng "填空题" (by decide) 4 5 (by decide)
      (List.range 4) (stB1 rng) h1n (by rw [hrem2]; decide)
  replace h2u : (stB2 rng).used_q_ids = (stB1 rng).used_q_ids ++ d2 := h2u
  replace h2n : (stB2 rng).used_q_ids.Nodup := h2n
  replace h2c : (stB2 rng).selected.length = (stB1 rng).selected.length +
      ((List.range 4).filter (fun j => eligible j 4)).length := h2c
  replace h2s : ((stB2 rng).selected.map Question.score).sum =
      ((stB1 rng).selected.map Question.score).sum +
        5 * (((List.range 4).filter (fun j => eligible j 4)).length : ℚ) := h2s
  rw [show ((List.range 4).filter (fun j => eligible j 4)).length = 3 from by decide]
    at h2c h2s
  -- group 3: the 6 short-answer slots
  have hdd31 : ∀ x ∈ typeQs dbB "解答题", d1.contains x.id = false :=
    contains_false_of_subset_disjoint h1m (by decide)
  have hdd32 : ∀ x ∈ typeQs dbB "解答题", d2.contains x.id = false :=
    contains_false_of_subset_disjoint h2m (by decide)
  have hrem3 : remaining dbB "解答题" (stB2 rng).used_q_ids = 6 := by
    rw [h2u, remaining_append_none dbB "解答题" _ d2 hdd32, h1u,
      remaining_append_none dbB "解答题" [] d1 hdd31]
    decide
  obtain ⟨d3, h3u, h3m, h3n, h3c, h3s⟩ :=
    genGroupB dbB hq hids rng "解答题" (by decide) 6 15 (by decide)
      (List.range 6) (stB2 rng) h2n (by rw [hrem3]; decide)
  replace h3c : (stB3 rng).selected.length = (stB2 rng).selected.length +
      ((List.range 6).filter (fun j => eligible j 6)).length := h3c
  replace h3s : ((stB3 rng).selected.map Question.score).sum =
      ((stB2 rng).selected.map Question.score).sum +
        15 * (((List.range 6).filter (fun j => eligible j 6)).length : ℚ) := h3s
  rw [show ((List.range 6).filter (fun j => eligible j 6)).length = 5 from by decide]
    at h3c h3s
  -- assemble: reduce the composer run to the three chained group folds
  have hweak : analyze_student_weaknesses dbB 1 (some 1) = [] := rfl
  simp only [generate_targeted_exam, hweak, List.take_nil, List.map_nil]
  rw [show _get_difficulty_target "medium" = 1/2 from by decide]
  rw [show _get_default_distribution dbB 1 150 =
      [("选择题", ⟨12, 4⟩), ("填空题", ⟨4, 5⟩), ("解答题", ⟨6, 15⟩)] from rfl]
  simp only [genLoop, genGroup, List.foldl_cons, List.foldl_nil]
  constructor
  · show (stB3 rng).selected.length = 17
    omega
  · show ((stB3 rng).selected.map Question.score).sum = 126
    rw [h3s, h2s, h1s]
    norm_num

set_option maxRecDepth 4000 in
/-- C1 counterexample: on a bank of exactly 12 choice, 4 fill-in and
6 short-answer questions for the subject, all at difficulty 0.5 (with the
template's own per-type point values), the composer selects 17 questions for
a total of 126 — not 22 questions totalling 158 as claimed: the early and
late slots of each gradient have difficulty windows that exclude 0.5. -/
theorem scenarioB_claim_fails :
    (generate_targeted_exam dbB rngZ 1 1 150 false "medium" none).actual_count = 17 ∧
    (generate_targeted_exam dbB rngZ 1 1 150 false "medium" none).actual_count ≠ 22 ∧
    (generate_targeted_exam dbB rngZ 1 1 150 false "medium" none).total_score = 126 ∧
    (generate_targeted_exam dbB rngZ 1 1 150 false "medium" none).total_score ≠ 158 := by
  refine ⟨by decide, by decide, by decide, by decide⟩

end Theorems

end SCP
